import Mathlib

/-!
Shallow embedding of parts of the Maestro kernel, checked against its
specification: the ext2 on-disk engine (inode lookup, content-block
resolution, content reads), the local APIC (enable sequence, timer
programming), interrupt dispatch, the IPv4 transmit path, the PID
allocator, the chown syscall and memory-space gaps.

Machine integers are modelled as Nat, with explicit truncation (mod 2^32,
mod 2^16) where the source's wrapping or casts matter.  A Rust panic
(division by zero, unwrap of None, array overrun) is modelled as
Option.none around the result.  Device reads are abstracted by a function
from byte offsets to the 32-bit value stored there; the register and MSR
writes of MMIO code are collected into explicit write lists.
-/

/-- Errno value for EINVAL, invalid argument. -/
def EINVAL : Nat := 22

/-- Errno value for EPERM, operation not permitted. -/
def EPERM : Nat := 1

/-- Errno value for ENOMEM, out of memory. -/
def ENOMEM : Nat := 12

/-- Number of direct block pointers of an ext2 inode
(constant DIRECT_BLOCKS_COUNT in src/file/filesystem/ext2/mod.rs). -/
def DIRECT_BLOCKS_COUNT : Nat := 12

/-- Ext2 write-required feature flag for 64-bit file sizes
(constant WRITE_REQUIRED_64_BITS). -/
def WRITE_REQUIRED_64_BITS : Nat := 0x2

/-- Fields of the ext2 superblock that the embedded functions consult
(from struct Superblock in src/file/filesystem/ext2/mod.rs). -/
structure Superblock where
  inodes_per_group : Nat
  major_version : Nat
  inode_size : Nat
  block_size_log : Nat
  write_required_features : Nat

/-- Superblock::get_block_size: the block size is 2^(block_size_log + 10)
bytes (math::pow2 of block_size_log + 10). -/
def Superblock.get_block_size (sb : Superblock) : Nat :=
  2 ^ (sb.block_size_log + 10)

/-- Ext2INode::get_inode_size: 128 bytes for revision 0, the
superblock-declared size for revision >= 1. -/
def get_inode_size (sb : Superblock) : Nat :=
  if sb.major_version ≥ 1 then sb.inode_size else 128

/-- Ext2INode::get_disk_offset translated from the source.
BlockGroupDescriptor::read is abstracted by tableStart, mapping a group
index to that group's inode_table_start_addr.  Valid superblocks have
inodes_per_group nonzero, so the Nat division cannot hide a Rust
divide-by-zero panic here. -/
def get_disk_offset (sb : Superblock) (tableStart : Nat → Nat) (i : Nat) : Nat :=
  let blk_size := sb.get_block_size
  let blk_grp := (i - 1) / sb.inodes_per_group
  let inode_off := (i - 1) % sb.inodes_per_group
  let inode_size := get_inode_size sb
  let inode_table_blk_off := (inode_off * inode_size) / blk_size
  let inode_table_blk := tableStart blk_grp + inode_table_blk_off
  inode_table_blk * blk_size + inode_off * inode_size

/-- Inode disk offset as the specification words it:
inode_table_start(group) * block_size + slot * inode_size. -/
def specInodeDiskOffset (sb : Superblock) (tableStart : Nat → Nat) (i : Nat) : Nat :=
  let blk_grp := (i - 1) / sb.inodes_per_group
  let slot := (i - 1) % sb.inodes_per_group
  tableStart blk_grp * sb.get_block_size + slot * get_inode_size sb

/-- Content-pointer and size fields of an ext2 inode
(from struct Ext2INode in src/file/filesystem/ext2/mod.rs). -/
structure Ext2INode where
  direct_block_ptrs : List Nat
  singly_indirect_block_ptr : Nat
  doubly_indirect_block_ptr : Nat
  triply_indirect_block_ptr : Nat
  size_low : Nat
  size_high : Nat

/-- Ext2INode::get_size: 64-bit size when revision >= 1 and the 64-bit
feature flag is set, else the low 32 bits only. -/
def Ext2INode.get_size (inode : Ext2INode) (sb : Superblock) : Nat :=
  let has_version := sb.major_version ≥ 1
  let has_feature := sb.write_required_features &&& WRITE_REQUIRED_64_BITS ≠ 0
  if has_version ∧ has_feature then
    (inode.size_high <<< 32) ||| inode.size_low
  else
    inode.size_low

/-- Loop body of Ext2INode::resolve_indirections, iterating over the
descending list of j values of the Rust loop (0..n).rev() with current
value b.  The source computes i / (j * entries_per_blk), which for j = 0
is a u32 division by zero: a Rust panic, modelled as none.  As in the
source, every read uses the original blk as base, not the value read in
the previous iteration, and the entry offset is not scaled by 4. -/
def resolveIndLoop (mem : Nat → Nat) (blk_size entries_per_blk blk i : Nat) :
    List Nat → Nat → Option Nat
  | [], b => some b
  | j :: js, _ =>
    if j * entries_per_blk = 0 then none
    else
      let inner_off := i / (j * entries_per_blk)
      let off := blk * blk_size + inner_off
      let b := mem off % 2 ^ 32
      if b = 0 then some 0
      else resolveIndLoop mem blk_size entries_per_blk blk i js b

/-- Ext2INode::resolve_indirections translated from the source: resolve n
indirections starting from block blk, looking for index i.  The result
some none is a hole (pointer 0), none is a Rust panic. -/
def resolve_indirections (mem : Nat → Nat) (sb : Superblock) (n blk i : Nat) :
    Option (Option Nat) :=
  let blk_size := sb.get_block_size
  let entries_per_blk := blk_size / 4
  match resolveIndLoop mem blk_size entries_per_blk blk i (List.range n).reverse blk with
  | none => none
  | some b => some (if b ≠ 0 then some b else none)

/-- Ext2INode::get_content_block_off translated from the source.  As in
the code, all three indirect branches pass singly_indirect_block_ptr to
resolve_indirections, and the bound of the doubly-indirect branch is
DIRECT_BLOCKS_COUNT + entries_per_blk^2 without the entries_per_blk
term. -/
def get_content_block_off (inode : Ext2INode) (mem : Nat → Nat) (sb : Superblock)
    (i : Nat) : Option (Option Nat) :=
  let entries_per_blk := sb.get_block_size / 4
  if i < DIRECT_BLOCKS_COUNT then
    let blk := inode.direct_block_ptrs.getD i 0
    some (if blk ≠ 0 then some blk else none)
  else if i < DIRECT_BLOCKS_COUNT + entries_per_blk then
    resolve_indirections mem sb 1 inode.singly_indirect_block_ptr
      (i - DIRECT_BLOCKS_COUNT)
  else if i < DIRECT_BLOCKS_COUNT + entries_per_blk * entries_per_blk then
    resolve_indirections mem sb 2 inode.singly_indirect_block_ptr
      (i - DIRECT_BLOCKS_COUNT - entries_per_blk)
  else
    resolve_indirections mem sb 3 inode.singly_indirect_block_ptr
      (i - DIRECT_BLOCKS_COUNT - entries_per_blk * entries_per_blk)

/-- Loop of Ext2INode::read_content over the content block ids; the
double unwrap of get_content_block_off in the source panics (none) when
the resolution itself panics or yields a hole. -/
def readContentLoop (inode : Ext2INode) (mem : Nat → Nat) (sb : Superblock) :
    List Nat → Option (Except Nat Unit)
  | [] => some (Except.ok ())
  | i :: is =>
    match get_content_block_off inode mem sb i with
    | some (some _) => readContentLoop inode mem sb is
    | _ => none

/-- Ext2INode::read_content translated from the source: the guard rejects
off >= size as well as off + buff.len() >= size with EINVAL; otherwise the
blocks from off / blk_size up to (off + buff.len()) / blk_size exclusive
are resolved and read. -/
def read_content (inode : Ext2INode) (mem : Nat → Nat) (sb : Superblock)
    (off buffLen : Nat) : Option (Except Nat Unit) :=
  if off ≥ inode.get_size sb ∨ off + buffLen ≥ inode.get_size sb then
    some (Except.error EINVAL)
  else
    let blk_size := sb.get_block_size
    let begin_blk_id := off / blk_size
    let end_blk_id := (off + buffLen) / blk_size
    readContentLoop inode mem sb (List.range' begin_blk_id (end_blk_id - begin_blk_id))

/-- Claim C1: the code does not resolve indirect content blocks as the
spec's thresholds require.  With 1 KiB blocks (N = 256) and an inode whose
direct pointers are 1..12 and singly-indirect pointer 13, index 5 resolves
through the direct pointer as specified, but index 12 (spec: singly
indirect) and index 268 (spec: doubly indirect) both hit the u32 division
by zero of resolve_indirections at j = 0 and panic, for any device
contents. -/
theorem c1_content_block_resolution_panics :
    get_content_block_off ⟨[1, 2, 3, 4, 5, 6, 7, 8, 9, 10, 11, 12], 13, 14, 15, 0, 0⟩
      (fun _ => 1) ⟨1024, 0, 0, 0, 0⟩ 5 = some (some 6) ∧
    get_content_block_off ⟨[1, 2, 3, 4, 5, 6, 7, 8, 9, 10, 11, 12], 13, 14, 15, 0, 0⟩
      (fun _ => 1) ⟨1024, 0, 0, 0, 0⟩ 12 = none ∧
    get_content_block_off ⟨[1, 2, 3, 4, 5, 6, 7, 8, 9, 10, 11, 12], 13, 14, 15, 0, 0⟩
      (fun _ => 1) ⟨1024, 0, 0, 0, 0⟩ 268 = none := by
  refine ⟨by decide, by decide, by decide⟩

/-- Claim C2: at inode 9 of a revision-0 filesystem with 1 KiB blocks,
1024 inodes per group and the group's inode table starting at block 5, the
code computes byte offset 7168 while the spec formula
inode_table_start * block_size + slot * inode_size gives 6144: the code
adds the slot's byte offset once rounded to blocks and once in full. -/
theorem c2_inode_disk_offset_divergence :
    get_disk_offset ⟨1024, 0, 0, 0, 0⟩ (fun _ => 5) 9 = 7168 ∧
    specInodeDiskOffset ⟨1024, 0, 0, 0, 0⟩ (fun _ => 5) 9 = 6144 ∧
    (7168 : Nat) ≠ 6144 := by
  refine ⟨by decide, by decide, by decide⟩

/-- Claim C9: read_content returns EINVAL whenever off >= size or
off + buff.len() >= size, so in particular a read ending exactly at the
last byte of the file is rejected. -/
theorem c9_read_content_rejects_einval (inode : Ext2INode) (mem : Nat → Nat)
    (sb : Superblock) (off buffLen : Nat)
    (h : off ≥ inode.get_size sb ∨ off + buffLen ≥ inode.get_size sb) :
    read_content inode mem sb off buffLen = some (Except.error EINVAL) := by
  unfold read_content
  rw [if_pos h]

/-- Concrete instance of c9_read_content_rejects_einval: a 10-byte file
read from offset 0 with a 10-byte buffer (the range ends exactly at the
last byte) is rejected with EINVAL. -/
theorem c9_read_content_rejects_einval_witness :
    (0 ≥ (⟨[], 0, 0, 0, 10, 0⟩ : Ext2INode).get_size ⟨1024, 0, 0, 0, 0⟩ ∨
      0 + 10 ≥ (⟨[], 0, 0, 0, 10, 0⟩ : Ext2INode).get_size ⟨1024, 0, 0, 0, 0⟩) ∧
    read_content ⟨[], 0, 0, 0, 10, 0⟩ (fun _ => 1) ⟨1024, 0, 0, 0, 0⟩ 0 10 =
      some (Except.error EINVAL) :=
  ⟨Or.inr (by decide),
    c9_read_content_rejects_einval ⟨[], 0, 0, 0, 10, 0⟩ (fun _ => 1)
      ⟨1024, 0, 0, 0, 0⟩ 0 10 (Or.inr (by decide))⟩

/-- Offset of the APIC Spurious Interrupt Vector register (REG_OFFSET_SIV). -/
def REG_OFFSET_SIV : Nat := 0xf0

/-- Offset of the APIC LVT Timer register (REG_OFFSET_LVT_TIMER). -/
def REG_OFFSET_LVT_TIMER : Nat := 0x320

/-- Offset of the APIC Initial Count register (REG_OFFSET_ICR). -/
def REG_OFFSET_ICR : Nat := 0x380

/-- Offset of the APIC Divide Configuration register (REG_OFFSET_DCR). -/
def REG_OFFSET_DCR : Nat := 0x3e0

/-- Interrupt vector programmed for the APIC timer (TIMER_VEC). -/
def TIMER_VEC : Nat := 0x0

/-- Number of trailing zero bits of a 64-bit value, by fuel-bounded
recursion (u64::trailing_zeros; 64 for the value 0). -/
def ctzAux : Nat → Nat → Nat
  | 0, _ => 0
  | fuel + 1, n => if n % 2 = 1 then 0 else 1 + ctzAux fuel (n / 2)

/-- Trailing zeros of a u64 value. -/
def trailingZeros64 (n : Nat) : Nat :=
  if n = 0 then 64 else ctzAux 64 n

/-- Divider-field encoding of APICTimer::set_curr_frequency: the match on
the shift amount 0..=7. -/
def dividerEncoding : Nat → Nat
  | 0 => 0b111
  | 1 => 0b000
  | 2 => 0b001
  | 3 => 0b010
  | 4 => 0b011
  | 5 => 0b100
  | 6 => 0b101
  | _ => 0b110

/-- Register writes performed by the non-zero-frequency branch of
APICTimer::set_curr_frequency, translated from the source.  Inputs are the
denominator of the counter ratio (count, a u64) and the values read from
DCR and LVT_TIMER; the output is the ordered list of (offset, value)
register writes. -/
def set_curr_frequency_writes (count dcrOld lvtOld : Nat) : List (Nat × Nat) :=
  let trailing_zeros := trailingZeros64 count
  let shift := min trailing_zeros 7
  let shifted := count >>> shift
  let div_val := dividerEncoding shift
  let div := (dcrOld &&& 0xfffffff4) ||| ((div_val &&& 0b100) <<< 3) ||| (div_val &&& 0b11)
  [(REG_OFFSET_DCR, div),
   (REG_OFFSET_DCR, shifted % 2 ^ 32),
   (REG_OFFSET_LVT_TIMER, ((lvtOld &&& 0xfff8ff00) ||| 0x20000 ||| TIMER_VEC) % 2 ^ 32)]

/-- Claim C3: for count = 6 (one trailing zero, so shift 1, divider
encoding 0b000 and shifted count 3) the timer programming writes the
shifted count 3 to the Divide Configuration register 0x3e0 as its second
write and performs no write at all to the Initial Count register 0x380,
against the spec, which sends the count to 0x380 and only the divider
encoding to 0x3e0.  The divider encoding itself matches the spec's table:
shift 0 maps to 0b111 and shift 1 to 0b000. -/
theorem c3_timer_count_written_to_dcr :
    set_curr_frequency_writes 6 0 0 =
      [(0x3e0, 0b000), (0x3e0, 3), (0x320, 0x20000)] ∧
    (set_curr_frequency_writes 6 0 0).all (fun w => w.1 ≠ REG_OFFSET_ICR) = true ∧
    (REG_OFFSET_DCR, 3) ∈ set_curr_frequency_writes 6 0 0 ∧
    dividerEncoding 0 = 0b111 ∧ dividerEncoding 1 = 0b000 ∧
    dividerEncoding 7 = 0b110 := by
  refine ⟨by decide, by decide, by decide, rfl, rfl, rfl⟩

/-- Effect of APIC::enable on its environment: the MSR writes (low and
high words of APIC_BASE), the APIC register writes, and the new enabled
flag. -/
structure ApicEnableEffect where
  msrWrites : List (Nat × Nat)
  regWrites : List (Nat × Nat)
  enabled : Bool

/-- APIC::enable translated from the source.  Inputs: the APIC's id and
enabled flag, the current core's id (cpu::get_current_id), the low and
high words read from the APIC_BASE MSR, and the value read from the SIV
register.  The source computes the base as
(lo & 0xfffff000) | ((hi & 0xf) << 32), truncates it to u32, masks it with
0xffff0000, ors in 0x800 (bit 11) and writes it back with a zero high
word, then ors bit 8 into SIV. -/
def APIC.enable (id : Nat) (enabled : Bool) (curId : Nat) (msrLo msrHi : Nat)
    (sivOld : Nat) : ApicEnableEffect :=
  if enabled then ⟨[], [], true⟩
  else if id ≠ curId then ⟨[], [], false⟩
  else
    let base := (msrLo &&& 0xfffff000) ||| ((msrHi &&& 0xf) <<< 32)
    let baseU32 := base % 2 ^ 32
    { msrWrites := [((baseU32 &&& 0xffff0000) ||| 0x800, 0)]
      regWrites := [(REG_OFFSET_SIV, (sivOld ||| 0x100) % 2 ^ 32)]
      enabled := true }

/-- Claim C6: with APIC base 0xfee01000 (address bit 12 set) read from the
MSR, enable on the owning core writes back 0xfee00800: bit 11 is set and
the SIV gets bit 8 ored in as the claim says, but address bit 12 of the
base is dropped by the 0xffff0000 mask instead of being preserved, so the
write-back does not preserve all upper address bits.  On a non-owning core
nothing is written. -/
theorem c6_enable_drops_base_address_bits :
    APIC.enable 0 false 0 0xfee01000 0 0xff =
      ⟨[(0xfee00800, 0)], [(0xf0, 0x1ff)], true⟩ ∧
    0xfee01000 &&& 0x1000 = 0x1000 ∧
    0xfee00800 &&& 0x1000 = 0 ∧
    0xfee00800 &&& 0x800 = 0x800 ∧
    APIC.enable 3 false 0 0xfee01000 0 0xff = ⟨[], [], false⟩ := by
  refine ⟨rfl, by decide, by decide, by decide, rfl⟩

/-- Interrupt error messages table of kernel/src/event.rs, one entry per
standard x86 exception vector. -/
def ERROR_MESSAGES : List String :=
  ["Divide-by-zero Error", "Debug", "Non-maskable Interrupt", "Breakpoint",
   "Overflow", "Bound Range Exceeded", "Invalid Opcode", "Device Not Available",
   "Double Fault", "Coprocessor Segment Overrun", "Invalid TSS",
   "Segment Not Present", "Stack-Segment Fault", "General Protection Fault",
   "Page Fault", "Unknown", "x87 Floating-Point Exception", "Alignement Check",
   "Machine Check", "SIMD Floating-Point Exception", "Virtualization Exception",
   "Unknown", "Unknown", "Unknown", "Unknown", "Unknown", "Unknown", "Unknown",
   "Unknown", "Unknown", "Security Exception", "Unknown"]

/-- Length of the exception message table; the dispatch code compares the
vector id against ERROR_MESSAGES.len() to decide whether it is an IRQ. -/
def EXCEPTION_COUNT : Nat := ERROR_MESSAGES.length

/-- Result returned by an interrupt callback (enum CallbackResult in
kernel/src/event.rs). -/
inductive CallbackResult where
  | Continue : CallbackResult
  | Idle : CallbackResult
  | Panic : CallbackResult
deriving DecidableEq

/-- What the handler does after the callback loop ends. -/
inductive HandlerOutcome where
  | returned : HandlerOutcome
  | waitLoop : HandlerOutcome
  | panicked : HandlerOutcome
deriving DecidableEq

/-- Observable trace of one event_handler run: the indices of the
callbacks invoked in order, the EOI issued (with its IRQ number) if any,
whether the chain lock was released, and how the handler ended. -/
structure DispatchTrace where
  invoked : List Nat
  eoi : Option Nat
  released : Bool
  outcome : HandlerOutcome
deriving DecidableEq

/-- Callback loop of event_handler in kernel/src/event.rs, translated from
the source; each callback of the chain is represented by the result it
returns, and k is the index of the first remaining callback.  Continue
moves on; Idle issues an EOI for id - EXCEPTION_COUNT when
id >= EXCEPTION_COUNT, drops the chain guard and resets into the wait
loop without returning; Panic raises a kernel panic (which never releases
the chain). -/
def dispatchGo (id : Nat) : Nat → List CallbackResult → DispatchTrace
  | _, [] => ⟨[], none, true, HandlerOutcome.returned⟩
  | k, c :: rest =>
    match c with
    | CallbackResult.Continue =>
      let t := dispatchGo id (k + 1) rest
      ⟨k :: t.invoked, t.eoi, t.released, t.outcome⟩
    | CallbackResult.Idle =>
      ⟨[k], if EXCEPTION_COUNT ≤ id then some (id - EXCEPTION_COUNT) else none,
        true, HandlerOutcome.waitLoop⟩
    | CallbackResult.Panic => ⟨[k], none, false, HandlerOutcome.panicked⟩

/-- Dispatch of one interrupt on vector id over its callback chain; the
chain list is in registration order, since register_callback pushes each
new callback at the tail of the vector's chain. -/
def event_handler (id : Nat) (chain : List CallbackResult) : DispatchTrace :=
  dispatchGo id 0 chain

/-- Helper: running the dispatch loop from index k over a block of
Continue callbacks followed by an Idle invokes exactly the indices
k..k+pre.length, issues the EOI and stops in the wait loop. -/
theorem dispatchGo_continue_then_idle (id : Nat) (hid : EXCEPTION_COUNT ≤ id)
    (post : List CallbackResult) :
    ∀ pre : List CallbackResult, (∀ c ∈ pre, c = CallbackResult.Continue) →
      ∀ k, dispatchGo id k (pre ++ CallbackResult.Idle :: post) =
        ⟨List.range' k (pre.length + 1), some (id - EXCEPTION_COUNT), true,
          HandlerOutcome.waitLoop⟩ := by
  intro pre
  induction pre with
  | nil =>
    intro _ k
    simp [dispatchGo, if_pos hid, List.range']
  | cons c rest ih =>
    intro h k
    have hc : c = CallbackResult.Continue := h c (List.mem_cons_self _ _)
    subst hc
    have hrest : ∀ x ∈ rest, x = CallbackResult.Continue :=
      fun x hx => h x (List.mem_cons_of_mem _ hx)
    simp [dispatchGo, ih hrest (k + 1), List.range']

/-- Claim C4: on vector id >= EXCEPTION_COUNT, a chain of callbacks that
all return Continue followed by one returning Idle (and arbitrary
later-registered callbacks) is invoked in registration order up to and
including the Idle one, an EOI is issued for IRQ id - EXCEPTION_COUNT,
the chain lock is released, and no later callback runs: the handler ends
in the wait loop without returning. -/
theorem c4_idle_stops_dispatch_with_eoi (id : Nat) (pre post : List CallbackResult)
    (hpre : ∀ c ∈ pre, c = CallbackResult.Continue) (hid : EXCEPTION_COUNT ≤ id) :
    event_handler id (pre ++ CallbackResult.Idle :: post) =
      ⟨List.range (pre.length + 1), some (id - EXCEPTION_COUNT), true,
        HandlerOutcome.waitLoop⟩ := by
  rw [event_handler, dispatchGo_continue_then_idle id hid post pre hpre 0,
    List.range_eq_range']

/-- Concrete instance of c4_idle_stops_dispatch_with_eoi: on vector 0x20
with chain [Continue, Idle, Continue], callbacks 0 and 1 run, EOI is sent
for IRQ 0, the lock is released, and the third callback never runs. -/
theorem c4_idle_stops_dispatch_with_eoi_witness :
    ((∀ c ∈ [CallbackResult.Continue], c = CallbackResult.Continue) ∧
      EXCEPTION_COUNT ≤ 0x20) ∧
    event_handler 0x20
        ([CallbackResult.Continue] ++ CallbackResult.Idle :: [CallbackResult.Continue]) =
      ⟨List.range 2, some 0, true, HandlerOutcome.waitLoop⟩ :=
  ⟨⟨by decide, by decide⟩,
    c4_idle_stops_dispatch_with_eoi 0x20 [CallbackResult.Continue]
      [CallbackResult.Continue] (by decide) (by decide)⟩

/-- Default TTL of transmitted IPv4 packets (DEFAULT_TTL in
src/net/proto/ip.rs). -/
def DEFAULT_TTL : Nat := 128

/-- IPv4 header fields (struct IPv4Header in src/net/proto/ip.rs).
Multi-byte fields hold their numeric value; the packed in-memory byte
image is produced by IPv4Header.bytes. -/
structure IPv4Header where
  version_ihl : Nat
  type_of_service : Nat
  total_length : Nat
  identification : Nat
  flags_fragment_offset : Nat
  ttl : Nat
  protocol : Nat
  hdr_checksum : Nat
  src_addr : List Nat
  dst_addr : List Nat

/-- Little-endian byte pair of a 16-bit value, as stored in memory by the
x86 target for the u16 fields of the packed header. -/
def le16 (n : Nat) : List Nat := [n % 256, n / 256 % 256]

/-- Byte image of the packed IPv4 header, 20 bytes, as the checksum code
sees it through slice::from_raw_parts. -/
def IPv4Header.bytes (h : IPv4Header) : List Nat :=
  [h.version_ihl % 256, h.type_of_service % 256] ++ le16 h.total_length ++
    le16 h.identification ++ le16 h.flags_fragment_offset ++
    [h.ttl % 256, h.protocol % 256] ++ le16 h.hdr_checksum ++
    h.src_addr ++ h.dst_addr

/-- Modelled from the spec: crypto::checksum is not under src/, so the sum
of a byte slice as 16-bit words is modelled from the spec's "checksum per
RFC 1071".  Words are read in native (little-endian) order, as a u16 read
of the packed header bytes on the x86 target does; a trailing odd byte
counts as a zero-padded word. -/
def sum16words : List Nat → Nat
  | [] => 0
  | [a] => a % 256
  | a :: b :: rest => (a % 256 + 256 * (b % 256)) + sum16words rest

/-- Modelled from the spec: the end-around-carry fold of RFC 1071,
folding the high half of the accumulator into the low 16 bits until none
remains; the fuel argument bounds the recursion and any fuel at least the
accumulator itself is enough. -/
def foldCarry : Nat → Nat → Nat
  | 0, x => x
  | fuel + 1, x => if x < 2 ^ 16 then x else foldCarry fuel (x % 2 ^ 16 + x / 2 ^ 16)

/-- Modelled from the spec: crypto::checksum::compute_rfc1071, the RFC
1071 internet checksum of a byte slice: the one's complement of the
folded 16-bit one's-complement sum. -/
def compute_rfc1071 (bytes : List Nat) : Nat :=
  let s := sum16words bytes
  (2 ^ 16 - 1) - foldCarry s s

/-- IPv4Header::compute_checksum translated from the source: zero the
checksum field, compute the RFC 1071 checksum of the header bytes and
store it in the field. -/
def IPv4Header.compute_checksum (h : IPv4Header) : IPv4Header :=
  let zeroed := { h with hdr_checksum := 0 }
  { h with hdr_checksum := compute_rfc1071 zeroed.bytes }

/-- Header assembled by IPv4Builder::transmit, translated from the
source; hdr_len is size_of of the header, 20 bytes.  Note the first byte
is computed as 4 | ((hdr_len / 4) << 4): the version 4 lands in the low
nibble and the IHL 5 in the high nibble. -/
def ipv4TransmitHeader (protocol : Nat) (dst_addr : List Nat) (payloadLen : Nat) :
    IPv4Header :=
  let hdr_len := 20
  IPv4Header.compute_checksum
    { version_ihl := (4 ||| ((hdr_len / 4) <<< 4)) % 256
      type_of_service := 0
      identification := 0
      flags_fragment_offset := 0
      total_length := (hdr_len + payloadLen) % 2 ^ 16
      ttl := DEFAULT_TTL
      protocol := protocol % 256
      hdr_checksum := 0
      src_addr := [0, 0, 0, 0]
      dst_addr := dst_addr }

/-- Claim C5: for a TCP packet to 10.0.0.1 with a 100-byte payload, the
assembled header does carry total_length 120 = 20 + 100, TTL 128, source
0.0.0.0 and a checksum that makes recomputation over the finished header
yield 0, but its first byte is 0x54, version 4 in the LOW nibble and IHL 5
in the high nibble, not 0x45 as the claim requires. -/
theorem c5_ipv4_version_ihl_swapped :
    (ipv4TransmitHeader 6 [10, 0, 0, 1] 100).bytes.headI = 0x54 ∧
    (0x54 : Nat) ≠ 0x45 ∧
    (ipv4TransmitHeader 6 [10, 0, 0, 1] 100).total_length = 120 ∧
    (ipv4TransmitHeader 6 [10, 0, 0, 1] 100).ttl = DEFAULT_TTL ∧
    (ipv4TransmitHeader 6 [10, 0, 0, 1] 100).src_addr = [0, 0, 0, 0] ∧
    compute_rfc1071 (ipv4TransmitHeader 6 [10, 0, 0, 1] 100).bytes = 0 := by
  refine ⟨by decide, by decide, by decide, by decide, by decide, by decide⟩

/-- Maximum possible PID (MAX_PID in src/process/pid.rs). -/
def MAX_PID : Nat := 32768

/-- PID of the init process (INIT_PID). -/
def INIT_PID : Nat := 1

/-- Modelled from the spec: util::container::id_allocator::IDAllocator is
not under src/; the spec describes it as a dense bit-set sized for the
limit, with alloc returning the lowest clear bit and free clearing a
bit. -/
structure IDAllocator where
  used : List Bool
deriving DecidableEq

/-- Modelled from the spec: a fresh allocator with all limit bits clear. -/
def IDAllocator.new (limit : Nat) : IDAllocator :=
  ⟨List.replicate limit false⟩

/-- Modelled from the spec: mark id i as used. -/
def IDAllocator.set_used (a : IDAllocator) (i : Nat) : IDAllocator :=
  ⟨a.used.set i true⟩

/-- Modelled from the spec: clear id i. -/
def IDAllocator.free (a : IDAllocator) (i : Nat) : IDAllocator :=
  ⟨a.used.set i false⟩

/-- Index of the lowest clear bit of a bit-set. -/
def lowestClear : List Bool → Option Nat
  | [] => none
  | b :: r => if b then (lowestClear r).map (· + 1) else some 0

/-- Modelled from the spec: alloc with no hint, as the PID manager calls
it, returns the lowest clear bit and marks it used; a full bit-set is an
allocation failure. -/
def IDAllocator.alloc (a : IDAllocator) : Except Nat (Nat × IDAllocator) :=
  match lowestClear a.used with
  | some i => Except.ok (i, a.set_used i)
  | none => Except.error ENOMEM

/-- PIDManager of src/process/pid.rs: an IDAllocator sized MAX_PID whose
bit INIT_PID - 1 is set by new. -/
structure PIDManager where
  allocator : IDAllocator
deriving DecidableEq

/-- PIDManager::new translated from the source: allocate MAX_PID ids and
pre-reserve INIT_PID - 1. -/
def PIDManager.new : PIDManager :=
  ⟨(IDAllocator.new MAX_PID).set_used (INIT_PID - 1)⟩

/-- PIDManager::get_unique_pid translated from the source: allocate the
lowest free id and add one. -/
def PIDManager.get_unique_pid (m : PIDManager) : Except Nat (Nat × PIDManager) :=
  match m.allocator.alloc with
  | Except.ok (i, a) => Except.ok (i + 1, ⟨a⟩)
  | Except.error e => Except.error e

/-- PIDManager::release_pid translated from the source: free bit
pid - 1. -/
def PIDManager.release_pid (m : PIDManager) (pid : Nat) : PIDManager :=
  ⟨m.allocator.free (pid - 1)⟩

/-- Helper: lowestClear finds exactly the first index holding false. -/
theorem lowestClear_iff (l : List Bool) (i : Nat) :
    lowestClear l = some i ↔
      (l.getD i true = false ∧ ∀ j, j < i → l.getD j true = true) := by
  induction l generalizing i with
  | nil => simp [lowestClear]
  | cons b r ih =>
    cases b with
    | false =>
      simp only [lowestClear, Bool.false_eq_true, if_false, Option.some.injEq]
      constructor
      · rintro rfl
        simp
      · rintro ⟨h1, h2⟩
        cases i with
        | zero => rfl
        | succ j => exact absurd (h2 0 (Nat.succ_pos j)) (by simp)
    | true =>
      simp only [lowestClear, if_true, Option.map_eq_some']
      constructor
      · rintro ⟨i0, hlc, rfl⟩
        obtain ⟨h1, h2⟩ := (ih i0).mp hlc
        refine ⟨by simpa using h1, ?_⟩
        intro j hj
        cases j with
        | zero => simp
        | succ j2 => simpa using h2 j2 (by omega)
      · rintro ⟨h1, h2⟩
        cases i with
        | zero => exact absurd h1 (by simp)
        | succ i0 =>
          refine ⟨i0, (ih i0).mpr ⟨by simpa using h1, ?_⟩, rfl⟩
          intro j hj
          simpa using h2 (j + 1) (by omega)

/-- Helper: getD after setting the same position returns the value set. -/
theorem getD_set_self (l : List Bool) (i : Nat) (a d : Bool) (h : i < l.length) :
    (l.set i a).getD i d = a := by
  induction l generalizing i with
  | nil => simp at h
  | cons x r ih =>
    cases i with
    | zero => simp
    | succ j =>
      simp only [List.set_cons_succ, List.getD_cons_succ]
      exact ih j (by simpa using h)

/-- Helper: getD with default true being false puts the index in range. -/
theorem getD_false_lt_length (l : List Bool) (i : Nat)
    (h : l.getD i true = false) : i < l.length := by
  by_contra hge
  rw [List.getD_eq_default _ _ (by omega)] at h
  exact absurd h (by simp)

/-- Claim C7: a successful get_unique_pid returns the lowest clear bit of
the bit-set plus 1 (every lower bit is set, the chosen bit was clear and
is set afterwards); in the fresh manager PID 1 is pre-reserved so the
first allocation returns 2; and releasing PID 2 clears its bit, so the
next allocation returns 2 again. -/
theorem c7_pid_alloc_lowest_clear (m : PIDManager) (p : Nat) (m2 : PIDManager)
    (h : m.get_unique_pid = Except.ok (p, m2)) :
    (1 ≤ p ∧ m.allocator.used.getD (p - 1) true = false ∧
      (∀ j, j < p - 1 → m.allocator.used.getD j true = true) ∧
      m2.allocator.used.getD (p - 1) true = true) ∧
    PIDManager.new.get_unique_pid =
      Except.ok (2, ⟨⟨true :: true :: List.replicate 32766 false⟩⟩) ∧
    (PIDManager.release_pid ⟨⟨true :: true :: List.replicate 32766 false⟩⟩ 2).allocator.used.getD 1 true = false ∧
    (PIDManager.release_pid ⟨⟨true :: true :: List.replicate 32766 false⟩⟩ 2).get_unique_pid =
      Except.ok (2, ⟨⟨true :: true :: List.replicate 32766 false⟩⟩) := by
  refine ⟨?_, rfl, by decide, rfl⟩
  unfold PIDManager.get_unique_pid IDAllocator.alloc at h
  cases hlc : lowestClear m.allocator.used with
  | none =>
    rw [hlc] at h
    exact absurd h (by simp)
  | some i =>
    rw [hlc] at h
    simp only [Except.ok.injEq, Prod.mk.injEq] at h
    obtain ⟨hp, hm2⟩ := h
    obtain ⟨h1, h2⟩ := (lowestClear_iff _ i).mp hlc
    subst hp
    refine ⟨by omega, by simpa using h1, by simpa using h2, ?_⟩
    rw [← hm2]
    exact getD_set_self _ _ _ _ (getD_false_lt_length _ _ h1)

/-- Concrete instance of c7_pid_alloc_lowest_clear: the fresh manager's
first allocation, pid 2, with bit 0 (PID 1) set and bit 1 clear before,
set after. -/
theorem c7_pid_alloc_lowest_clear_witness :
    PIDManager.new.get_unique_pid =
      Except.ok (2, ⟨⟨true :: true :: List.replicate 32766 false⟩⟩) ∧
    (1 ≤ 2 ∧ PIDManager.new.allocator.used.getD (2 - 1) true = false ∧
      (∀ j, j < 2 - 1 → PIDManager.new.allocator.used.getD j true = true) ∧
      (⟨⟨true :: true :: List.replicate 32766 false⟩⟩ : PIDManager).allocator.used.getD (2 - 1) true = true) :=
  ⟨rfl,
    (c7_pid_alloc_lowest_clear PIDManager.new 2
      ⟨⟨true :: true :: List.replicate 32766 false⟩⟩ rfl).1⟩

/-- Owner fields of a resolved file, as chown manipulates them. -/
structure FileOwner where
  uid : Nat
  gid : Nat
deriving DecidableEq

/-- do_chown of src/syscall/chown.rs translated from the source, after
path resolution: the access profile is reduced to its is_privileged flag,
which is all the code consults, and the resolved file to its owner
fields.  The result is the syscall return paired with the final owner
fields (unchanged on every error path).  The u32 casts of the
non-negative i32 arguments are value-preserving, so toNat models them. -/
def do_chown (privileged : Bool) (owner group : Int) (file : FileOwner) :
    Except Nat Int × FileOwner :=
  if owner < -1 ∨ group < -1 then (Except.error EINVAL, file)
  else if ¬privileged then (Except.error EPERM, file)
  else
    let f1 := if owner ≠ -1 then { file with uid := owner.toNat } else file
    let f2 := if group ≠ -1 then { f1 with gid := group.toNat } else f1
    (Except.ok 0, f2)

/-- Claim C8, counterexample to the claim as stated: the non-privileged
invocation chown(path, -2, 0) returns EINVAL, not EPERM. -/
theorem c8_chown_nonpriv_einval_counterexample :
    (do_chown false (-2) 0 ⟨1000, 1000⟩).1 = Except.error EINVAL ∧
    (do_chown false (-2) 0 ⟨1000, 1000⟩).1 ≠ Except.error EPERM := by
  constructor
  · rfl
  · intro h
    have : EINVAL = EPERM := Except.error.inj (by rw [← h]; rfl)
    simp [EINVAL, EPERM] at this

/-- Claim C8 as amended: for argument values owner >= -1 and group >= -1,
a non-privileged caller gets EPERM with the file's owner fields unchanged
whatever they are (in particular when the file is already owned by the
caller), and a privileged caller updates exactly the fields whose
argument is not -1. -/
theorem c8_chown_requires_privilege (owner group : Int) (file : FileOwner)
    (howner : -1 ≤ owner) (hgroup : -1 ≤ group) :
    do_chown false owner group file = (Except.error EPERM, file) ∧
    do_chown true owner group file =
      (Except.ok 0,
        ⟨if owner = -1 then file.uid else owner.toNat,
         if group = -1 then file.gid else group.toNat⟩) := by
  constructor
  · unfold do_chown
    rw [if_neg (by omega)]
    simp
  · unfold do_chown
    rw [if_neg (by omega)]
    by_cases ho : owner = -1 <;> by_cases hg : group = -1 <;> simp [ho, hg]

/-- Concrete instance of c8_chown_requires_privilege, the spec's own
scenario: chown(path, 1000, -1) by a non-privileged caller on a file
already owned by uid 1000 returns EPERM and changes nothing, while a
privileged caller changes the uid and leaves the gid alone. -/
theorem c8_chown_requires_privilege_witness :
    ((-1 : Int) ≤ 1000 ∧ (-1 : Int) ≤ -1) ∧
    do_chown false 1000 (-1) ⟨1000, 5⟩ = (Except.error EPERM, ⟨1000, 5⟩) ∧
    do_chown true 1000 (-1) ⟨1000, 5⟩ = (Except.ok 0, ⟨1000, 5⟩) :=
  ⟨⟨by decide, by decide⟩,
    c8_chown_requires_privilege 1000 (-1) ⟨1000, 5⟩ (by decide) (by decide)⟩

/-- Size of a memory page in bytes (memory::PAGE_SIZE). -/
def PAGE_SIZE : Nat := 4096

/-- MemGap of src/process/mem_space/gap.rs: begin address (page-aligned
per MemGap::new) and size in pages (NonZeroUsize in the source; the
nonzero and alignment invariants are carried as hypotheses where
needed). -/
structure MemGap where
  begin : Nat
  size : Nat
deriving DecidableEq

/-- MemGap::get_end: the address one past the gap. -/
def MemGap.get_end (g : MemGap) : Nat :=
  g.begin + g.size * PAGE_SIZE

/-- MemGap::consume translated from the source: the residual gap before
the consumed region (when off is nonzero, with size min off g.size) and
the residual after it (when g.size - (off + size) does not underflow to
none or zero). -/
def MemGap.consume (g : MemGap) (off size : Nat) : Option MemGap × Option MemGap :=
  let left := if off ≠ 0 then some (MemGap.mk g.begin (min off g.size)) else none
  let right :=
    if g.size - (off + size) ≠ 0 then
      some (MemGap.mk (g.begin + (off + size) * PAGE_SIZE) (g.size - (off + size)))
    else none
  (left, right)

/-- Claim C10: under off + size <= g.size, consume returns the left
residual [g.begin, g.begin + off pages) exactly when off > 0 and the
right residual [g.begin + (off + size) pages, g.end) exactly when
off + size < g.size; each returned residual is page-aligned, of nonzero
length, and shares its endpoints with the original gap and the consumed
region, so the two residuals and the consumed region partition the
original gap. -/
theorem c10_gap_consume_partitions (g : MemGap) (off size : Nat)
    (hsz : 0 < g.size) (hle : off + size ≤ g.size)
    (halign : g.begin % PAGE_SIZE = 0) :
    ((g.consume off size).1 = if off = 0 then none else some ⟨g.begin, off⟩) ∧
    ((g.consume off size).2 = if off + size = g.size then none
      else some ⟨g.begin + (off + size) * PAGE_SIZE, g.size - (off + size)⟩) ∧
    (∀ l, (g.consume off size).1 = some l →
      l.begin = g.begin ∧ l.get_end = g.begin + off * PAGE_SIZE ∧
        0 < l.size ∧ l.begin % PAGE_SIZE = 0) ∧
    (∀ r, (g.consume off size).2 = some r →
      r.begin = g.begin + (off + size) * PAGE_SIZE ∧ r.get_end = g.get_end ∧
        0 < r.size ∧ r.begin % PAGE_SIZE = 0) := by
  have hmin : min off g.size = off := Nat.min_eq_left (by omega)
  have hc1 : (g.consume off size).1 = if off = 0 then none
      else some ⟨g.begin, off⟩ := by
    by_cases h0 : off = 0 <;> simp [MemGap.consume, h0, hmin]
  have hc2 : (g.consume off size).2 = if off + size = g.size then none
      else some ⟨g.begin + (off + size) * PAGE_SIZE, g.size - (off + size)⟩ := by
    by_cases hfull : off + size = g.size
    · have hz : g.size - (off + size) = 0 := by omega
      simp [MemGap.consume, hfull, hz]
    · have hz : g.size - (off + size) ≠ 0 := by omega
      simp [MemGap.consume, hfull, hz]
  refine ⟨hc1, hc2, ?_, ?_⟩
  · intro l hl
    rw [hc1] at hl
    by_cases h0 : off = 0
    · rw [if_pos h0] at hl
      exact absurd hl (by simp)
    · rw [if_neg h0] at hl
      obtain rfl : MemGap.mk g.begin off = l := Option.some.inj hl
      exact ⟨rfl, rfl, by show 0 < off; omega, halign⟩
  · intro r hr
    rw [hc2] at hr
    by_cases hfull : off + size = g.size
    · rw [if_pos hfull] at hr
      exact absurd hr (by simp)
    · rw [if_neg hfull] at hr
      obtain rfl :
          MemGap.mk (g.begin + (off + size) * PAGE_SIZE) (g.size - (off + size)) = r :=
        Option.some.inj hr
      refine ⟨rfl, ?_, by show 0 < g.size - (off + size); omega, ?_⟩
      · show g.begin + (off + size) * PAGE_SIZE + (g.size - (off + size)) * PAGE_SIZE =
          g.get_end
        simp only [MemGap.get_end, PAGE_SIZE]
        omega
      · show (g.begin + (off + size) * PAGE_SIZE) % PAGE_SIZE = 0
        simp only [PAGE_SIZE] at halign ⊢
        omega

/-- Concrete instance of c10_gap_consume_partitions: consuming pages
2..5 of a 10-page gap at 0x1000 leaves the 2-page gap at 0x1000 and the
5-page gap at 0x6000. -/
theorem c10_gap_consume_partitions_witness :
    (0 < 10 ∧ 2 + 3 ≤ 10 ∧ 0x1000 % PAGE_SIZE = 0) ∧
    ((MemGap.mk 0x1000 10).consume 2 3).1 = some ⟨0x1000, 2⟩ ∧
    ((MemGap.mk 0x1000 10).consume 2 3).2 = some ⟨0x1000 + 5 * PAGE_SIZE, 5⟩ :=
  ⟨⟨by decide, by decide, by decide⟩,
    (c10_gap_consume_partitions ⟨0x1000, 10⟩ 2 3 (by decide) (by decide)
        (by decide)).1.trans (by decide),
    (c10_gap_consume_partitions ⟨0x1000, 10⟩ 2 3 (by decide) (by decide)
        (by decide)).2.1.trans (by decide)⟩
